import Mathlib

/-!
# fft.c — verification of `example.c`

A shallow embedding of the audio-device callback `data_callback` and of the
render loop of `main` in `src/example.c`, and the properties of them that the
specification states.

Conventions of the embedding:

* A C array reached through a pointer is a function `Nat → α` (cell `k` is
  `p[k]`), so that a write or a read past the end of the array is visible in
  the model instead of being silently dropped.
* `unsigned int` arithmetic that can wrap carries an explicit `% 2 ^ 32`.
* `FRAME_COUNT_MAX`, `FREQUENCY_SCALING`, the arrays `frames` and
  `frequencies` and the three transforms are declared in `fft.c`, which
  `example.c` includes; they are parameters of the definitions below.
-/

namespace FftC

/-! ## The audio callback -/

/-- Memory seen through a pointer: cell `k` holds `p[k]`. -/
abbrev Mem (α : Type) := Nat → α

/-- Everything `data_callback` can touch: the global window `frames`, the memory
behind `pOutput`, the user-data handle of the device (`none` is `NULL`,
`some d` a decoder in state `d`), and two logs: the frame counts the decoder
was asked for, and the indices at which `pOutput` was read. -/
structure AudioState (α D : Type) where
  frames : Mem α
  pOutput : Mem α
  pUserData : Option D
  decoderCalls : List Nat
  reads : List Nat

/-- The collaborator `ma_decoder_read_pcm_frames(pDecoder, pOutput, frameCount, NULL)`:
from the decoder state, the memory behind `pOutput` and the frame count it gives
the new decoder state and the memory behind `pOutput` after the call. It has no
access to the window `frames`. -/
abbrev ReadPcmFrames (α D : Type) := D → Mem α → Nat → D × Mem α

/-- The value of the `unsigned int` expression `i*2`. -/
def sampleIndex (i : Nat) : Nat := (i * 2) % 2 ^ 32

/-- One pass through the loop body `frames[i] = ((float*)pOutput)[i*2];`. -/
def callback_body {α D : Type} (i : Nat) (s : AudioState α D) : AudioState α D :=
  { s with
    frames := Function.update s.frames i (s.pOutput (sampleIndex i))
    reads := s.reads ++ [sampleIndex i] }

/-- The loop `for (unsigned int i = 0; i < frameCount && i < FRAME_COUNT_MAX; ++i)`,
entered at counter `i`. The first argument bounds the number of passes; the
loop leaves through its guard after at most `frameCount - i` of them
(`callback_loop_fuel`). The counter cannot wrap: it stays below `frameCount`,
a `ma_uint32`. -/
def callback_loop {α D : Type} (N frameCount : Nat) :
    Nat → Nat → AudioState α D → AudioState α D
  | 0, _, s => s
  | fuel + 1, i, s =>
    if i < frameCount ∧ i < N then
      callback_loop N frameCount fuel (i + 1) (callback_body i s)
    else s

/-- The function `data_callback(pDevice, pOutput, pInput, frameCount)` with
`FRAME_COUNT_MAX = N`; `pInput` is unused. -/
def data_callback {α D : Type} (read_pcm_frames : ReadPcmFrames α D) (N : Nat)
    (s : AudioState α D) (frameCount : Nat) : AudioState α D :=
  match s.pUserData with
  | none => s
  | some pDecoder =>
    let r := read_pcm_frames pDecoder s.pOutput frameCount
    callback_loop N frameCount frameCount 0
      { s with
        pUserData := some r.1
        pOutput := r.2
        decoderCalls := s.decoderCalls ++ [frameCount] }

/-- The state in which the loop of `data_callback` is entered when the handle is
`some pDecoder`: the decoder has filled the output buffer. -/
def afterDecode {α D : Type} (read_pcm_frames : ReadPcmFrames α D)
    (s : AudioState α D) (pDecoder : D) (frameCount : Nat) : AudioState α D :=
  { s with
    pUserData := some (read_pcm_frames pDecoder s.pOutput frameCount).1
    pOutput := (read_pcm_frames pDecoder s.pOutput frameCount).2
    decoderCalls := s.decoderCalls ++ [frameCount] }

/-! ### A mono decoder, for concrete runs -/

/-- A decoder of a one-channel stream whose `k`-th sample is `10 * (k + 1)`: a
request for `n` frames writes the `n * 1` samples of the next `n` frames to
`pOutput[0 .. n)` and leaves the rest of the memory as it was. The decoder
state is the number of frames delivered so far. -/
def monoDecoder : ReadPcmFrames Int Nat :=
  fun pos out n => (pos + n, fun k => if k < n then 10 * ((pos + k : Nat) + 1 : Int) else out k)

/-- A start state for concrete runs: window `[1, 2, 3, 4]` (cell `k` holds
`k + 1`), memory behind `pOutput` all `-1`, the given handle, empty logs. -/
def demoState (h : Option Nat) : AudioState Int Nat :=
  { frames := fun k => (k : Int) + 1
    pOutput := fun _ => -1
    pUserData := h
    decoderCalls := []
    reads := [] }

/-! ### Producer and transform on two threads

`main` hands the global array `frames` itself to the transform
(`fft(frames, frequencies, FRAME_COUNT_MAX)`), and `data_callback` stores into
the same array from the audio thread; neither takes a lock or a copy. The
model below interleaves the two at the granularity of one array access: a
producer step is one pass of the loop of `data_callback`, a consumer step is
one load `frames[j]` by the transform. The order in which the transform loads
the cells is a parameter. -/

/-- The two threads that touch `frames`. -/
inductive Thread
  | producer
  | consumer
  deriving DecidableEq, Repr

/-- A transform invocation in flight next to a callback invocation in flight:
the shared state, the loop counter `i` of the callback, the cells the transform
has still to load, and the values it has loaded so far. -/
structure Race (α D : Type) where
  audio : AudioState α D
  i : Nat
  toRead : List Nat
  observed : List α

/-- One step of the given thread. The producer runs one pass of the loop of
`data_callback` (guard, body, `++i`), or nothing once the guard fails; the
consumer loads the next cell of `frames`. -/
def Race.step {α D : Type} (N frameCount : Nat) (r : Race α D) : Thread → Race α D
  | .producer =>
    if r.i < frameCount ∧ r.i < N then
      { r with audio := callback_body r.i r.audio, i := r.i + 1 }
    else r
  | .consumer =>
    match r.toRead with
    | [] => r
    | j :: rest => { r with toRead := rest, observed := r.observed ++ [r.audio.frames j] }

/-- The steps of a schedule, in order. -/
def Race.run {α D : Type} (N frameCount : Nat) (r : Race α D) (sched : List Thread) :
    Race α D :=
  sched.foldl (Race.step N frameCount) r

/-- A transform invocation that starts on state `s` and loads the cells `order`,
while the callback loop stands at counter `i`. -/
def Race.start {α D : Type} (s : AudioState α D) (i : Nat) (order : List Nat) : Race α D :=
  { audio := s, i := i, toRead := order, observed := [] }

/-- A decoder of a two-channel stream: frame `k` has the samples `10 * (k + 1)`
(first channel) and `10 * (k + 1) + 5` (second channel). A request for `n`
frames writes the `n * 2` interleaved samples to `pOutput[0 .. 2 * n)`. -/
def stereoDecoder : ReadPcmFrames Int Nat :=
  fun pos out n =>
    (pos + n, fun k =>
      if k < n * 2 then 10 * ((pos + k / 2 : Nat) + 1 : Int) + (if k % 2 = 0 then 0 else 5)
      else out k)

/-- The state of `demoState (some 0)` after the stereo decoder has delivered
two frames: the loop of `data_callback` is about to start. -/
def demoDecoded : AudioState Int Nat := afterDecode stereoDecoder (demoState (some 0)) 0 2

/-! ## The render loop of `main` -/

/-- The enumeration `FunctionType`. -/
inductive FunctionType
  | FRAMES
  | DFT
  | FFT
  deriving DecidableEq, Repr

/-- The fields of `SDL_Event` that `main` looks at: `event.type` and
`event.key.key`. -/
structure SDL_Event where
  type : Nat
  key : Nat
  deriving DecidableEq, Repr

/-- The value of `SDL_EVENT_KEY_DOWN` in SDL3. -/
def SDL_EVENT_KEY_DOWN : Nat := 0x300

/-- The value of `SDLK_ESCAPE` in SDL3. -/
def SDLK_ESCAPE : Nat := 0x1B

/-- The event block at the top of the loop body: `polled` is `none` when
`SDL_PollEvent` returned false. The result is the value of `function_type`
after the block, or `none` for `goto cleanup`. -/
def handle_event (polled : Option SDL_Event) (function_type : FunctionType) :
    Option FunctionType :=
  match polled with
  | none => some function_type
  | some event =>
    if SDL_EVENT_KEY_DOWN = event.type then
      if event.key = 'q'.toNat ∨ event.key = SDLK_ESCAPE then none
      else if event.key = '1'.toNat then some FunctionType.FRAMES
      else if event.key = '2'.toNat then some FunctionType.DFT
      else if event.key = '3'.toNat then some FunctionType.FFT
      else some function_type
    else some function_type

/-- A `struct timespec`. -/
structure Timespec where
  tv_sec : Int
  tv_nsec : Int
  deriving DecidableEq, Repr

/-- The calls `main` makes to its collaborators, with the arguments that
matter here. A rectangle carries `x`, `y`, `w` and `h`. -/
inductive Call
  | SDL_Init
  | SDL_GetError
  | fprintf_stderr (msg : String)
  | printf (msg : String)
  | SDL_CreateWindowAndRenderer
  | ma_decoder_init_file
  | ma_device_config_init
  | ma_device_init
  | ma_device_start
  | clock_gettime
  | SDL_PollEvent
  | SDL_SetRenderDrawColor (r g b a : Nat)
  | SDL_RenderClear
  | SDL_RenderFillRect (x y w : Nat) (h : ℚ)
  | SDL_SetRenderScale (sx sy : Nat)
  | SDL_RenderDebugText (str : String)
  | frames_as_frequencies
  | dft
  | fft
  | SDL_RenderPresent
  | SDL_Delay (ms : Nat)
  | ma_device_uninit
  | ma_decoder_uninit
  | SDL_DestroyRenderer
  | SDL_DestroyWindow
  | SDL_Quit
  deriving DecidableEq, Repr

/-- The three transforms of `fft.c`, each `void f(frames, frequencies, count)`:
from the window, the prior contents of `frequencies` and the count, the
contents of `frequencies` after the call. -/
structure Transforms where
  frames_as_frequencies : Mem ℚ → Mem ℚ → Nat → Mem ℚ
  dft : Mem ℚ → Mem ℚ → Nat → Mem ℚ
  fft : Mem ℚ → Mem ℚ → Nat → Mem ℚ

/-- The constants of `fft.c` that `main` uses. -/
structure Config where
  FRAME_COUNT_MAX : Nat
  FREQUENCY_SCALING : ℚ

def WINDOW_WIDTH : Nat := 1280

def WINDOW_HEIGHT : Nat := 720

def FPS : ℚ := 60

/-- The variables of `main` that live across loop iterations, and the global
array `frequencies`. Times are exact rationals in place of `double`. -/
structure LoopState where
  delta_time : ℚ
  function_type : FunctionType
  frequencies : Mem ℚ

/-- What one loop iteration receives from outside: the two clock readings,
the result of `SDL_PollEvent`, whether `SDL_RenderClear` and
`SDL_RenderPresent` succeed, and the contents of the window `frames` (written
by the audio thread) when the transform is called. -/
structure Iteration where
  frame_start : Timespec
  polled : Option SDL_Event
  clear_ok : Bool
  frames : Mem ℚ
  present_ok : Bool
  frame_end : Timespec

/-- The increment of `delta_time` at the end of an iteration:
`(frame_end.tv_sec - frame_start.tv_sec) + (frame_end.tv_nsec - frame_start.tv_nsec) / 1e9`. -/
def Iteration.elapsed (it : Iteration) : ℚ :=
  ((it.frame_end.tv_sec - it.frame_start.tv_sec : Int) : ℚ)
    + ((it.frame_end.tv_nsec - it.frame_start.tv_nsec : Int) : ℚ) / 1000000000

/-- The height `WINDOW_HEIGHT * frequencies[i] / 2.0 * FREQUENCY_SCALING` of bar `i`. -/
def bar_height (cfg : Config) (frequencies : Mem ℚ) (i : Nat) : ℚ :=
  (WINDOW_HEIGHT : ℚ) * frequencies i / 2 * cfg.FREQUENCY_SCALING

/-- The two `SDL_RenderFillRect` calls of bar `i`: the rectangle, then the
rectangle with `rect.h *= -1`. The coordinates are `unsigned int` expressions. -/
def draw_bar (cfg : Config) (frequencies : Mem ℚ) (i : Nat) : List Call :=
  let x := ((i * WINDOW_WIDTH) % 2 ^ 32 / cfg.FRAME_COUNT_MAX * 2) % 2 ^ 32
  let y := WINDOW_HEIGHT / 2
  let w := WINDOW_WIDTH / cfg.FRAME_COUNT_MAX
  let h := bar_height cfg frequencies i
  [Call.SDL_RenderFillRect x y w h, Call.SDL_RenderFillRect x y w (h * -1)]

/-- The loop `for (unsigned int i = 0; i < FRAME_COUNT_MAX / 2; ++i)` that draws the bars. -/
def draw_bars (cfg : Config) (frequencies : Mem ℚ) : List Call :=
  ((List.range (cfg.FRAME_COUNT_MAX / 2)).map (draw_bar cfg frequencies)).flatten

/-- The `switch (function_type)` of the render block: the label drawn and the
transform called, and the contents of `frequencies` after it. -/
def label_and_transform (T : Transforms) (cfg : Config) (function_type : FunctionType)
    (frames frequencies : Mem ℚ) : List Call × Mem ℚ :=
  match function_type with
  | .FRAMES =>
    ([Call.SDL_RenderDebugText "Showing: Frames. Change with 1 / 2 / 3",
      Call.frames_as_frequencies],
     T.frames_as_frequencies frames frequencies cfg.FRAME_COUNT_MAX)
  | .DFT =>
    ([Call.SDL_RenderDebugText "Showing: DFT. Change with 1 / 2 / 3", Call.dft],
     T.dft frames frequencies cfg.FRAME_COUNT_MAX)
  | .FFT =>
    ([Call.SDL_RenderDebugText "Showing: FFT. Change with 1 / 2 / 3", Call.fft],
     T.fft frames frequencies cfg.FRAME_COUNT_MAX)

/-- The tail of the loop body: `SDL_Delay(16)`, the second clock reading and
`delta_time += ...`. -/
def end_of_iteration (s : LoopState) (it : Iteration) : List Call × Option LoopState :=
  ([Call.SDL_Delay 16, Call.clock_gettime],
   some { s with delta_time := s.delta_time + it.elapsed })

/-- One pass through the body of `while(1)`: the calls made, and the state at
the end of the pass, or `none` when the pass leaves by `goto cleanup`. -/
def loop_body (T : Transforms) (cfg : Config) (s : LoopState) (it : Iteration) :
    List Call × Option LoopState :=
  match handle_event it.polled s.function_type with
  | none => ([Call.clock_gettime, Call.SDL_PollEvent], none)
  | some function_type =>
    let pre := [Call.clock_gettime, Call.SDL_PollEvent, Call.SDL_SetRenderDrawColor 0 0 0 255,
      Call.SDL_RenderClear]
    if !it.clear_ok then
      (pre ++ [Call.SDL_GetError, Call.fprintf_stderr "Error Clearing SDL Window: %s\n"], none)
    else if s.delta_time > 1 / FPS then
      let lt := label_and_transform T cfg function_type it.frames s.frequencies
      let drawn := pre ++ [Call.SDL_SetRenderDrawColor 0 255 0 255]
        ++ draw_bars cfg s.frequencies
        ++ [Call.SDL_SetRenderDrawColor 255 255 255 255, Call.SDL_SetRenderScale 2 2]
        ++ lt.1
        ++ [Call.SDL_SetRenderScale 1 1, Call.SDL_RenderPresent]
      if !it.present_ok then
        (drawn ++ [Call.SDL_GetError, Call.fprintf_stderr "Error Rendering SDL Window: %s\n"],
         none)
      else
        let e := end_of_iteration
          { delta_time := 0, function_type := function_type, frequencies := lt.2 } it
        (drawn ++ e.1, e.2)
    else
      let e := end_of_iteration { s with function_type := function_type } it
      (pre ++ e.1, e.2)

/-- The loop `while(1)` over the iterations the environment supplies: the calls
made up to the `goto cleanup`, or `none` when the loop is still running after
the last supplied iteration. -/
def main_loop (T : Transforms) (cfg : Config) : LoopState → List Iteration → Option (List Call)
  | _, [] => none
  | s, it :: its =>
    match loop_body T cfg s it with
    | (calls, none) => some calls
    | (calls, some s') => (main_loop T cfg s' its).map (calls ++ ·)

/-- The results of the start-up calls: whether `SDL_Init`,
`SDL_CreateWindowAndRenderer`, `ma_decoder_init_file`, `ma_device_init` and
`ma_device_start` succeed. -/
structure Startup where
  sdl_init : Bool
  create_window : Bool
  decoder_init : Bool
  device_init : Bool
  device_start : Bool

/-- The statements after the label `cleanup:`. -/
def cleanup : List Call :=
  [Call.ma_device_uninit, Call.ma_decoder_uninit, Call.SDL_DestroyRenderer,
   Call.SDL_DestroyWindow, Call.SDL_Quit]

/-- The values of the locals of `main` when the loop is entered, with the
initial contents of the global `frequencies`. -/
def initial_state (frequencies : Mem ℚ) : LoopState :=
  { delta_time := 0, function_type := FunctionType.FRAMES, frequencies := frequencies }

/-- The calls of a start-up in which every step succeeds. -/
def startup_calls : List Call :=
  [Call.SDL_Init, Call.SDL_CreateWindowAndRenderer, Call.ma_decoder_init_file,
   Call.ma_device_config_init, Call.printf "Channels: %d\n", Call.ma_device_init,
   Call.ma_device_start]

/-- A start-up in which every step succeeds. -/
def Startup.ok : Startup :=
  { sdl_init := true, create_window := true, decoder_init := true, device_init := true,
    device_start := true }

/-- The function `main`: exit code and trace of collaborator calls, or `none`
when the loop is still running after the last supplied iteration. -/
def main (T : Transforms) (cfg : Config) (frequencies : Mem ℚ) (su : Startup)
    (its : List Iteration) : Option (Int × List Call) :=
  if !su.sdl_init then
    some (1, [Call.SDL_Init, Call.SDL_GetError,
      Call.fprintf_stderr "Error initializing SDL: %s\n"])
  else if !su.create_window then
    some (1, [Call.SDL_Init, Call.SDL_CreateWindowAndRenderer, Call.SDL_GetError,
      Call.fprintf_stderr "Error Creating SDL Window: %s\n"])
  else if !su.decoder_init then
    some (-2, [Call.SDL_Init, Call.SDL_CreateWindowAndRenderer, Call.ma_decoder_init_file,
      Call.printf "Could not load file\n"])
  else
    let started := [Call.SDL_Init, Call.SDL_CreateWindowAndRenderer, Call.ma_decoder_init_file,
      Call.ma_device_config_init, Call.printf "Channels: %d\n", Call.ma_device_init]
    if !su.device_init then
      some (-3, started ++ [Call.printf "Failed to open playback device.\n",
        Call.ma_decoder_uninit])
    else if !su.device_start then
      some (-4, started ++ [Call.ma_device_start,
        Call.printf "Failed to start playback device.\n",
        Call.ma_device_uninit, Call.ma_decoder_uninit])
    else
      match main_loop T cfg (initial_state frequencies) its with
      | none => none
      | some calls => some (0, started ++ [Call.ma_device_start] ++ calls ++ cleanup)

/-! ### Observing a run of the loop -/

/-- The state at the start of iteration `k`, or `none` when the loop has left
before or the supplied iterations do not reach that far. -/
def state_at (T : Transforms) (cfg : Config) : LoopState → List Iteration → Nat → Option LoopState
  | s, _, 0 => some s
  | _, [], _ + 1 => none
  | s, it :: its, k + 1 =>
    match (loop_body T cfg s it).2 with
    | none => none
    | some s' => state_at T cfg s' its k

/-- The calls made in iteration `k`; empty when the loop does not run it. -/
def calls_at (T : Transforms) (cfg : Config) (s : LoopState) (its : List Iteration)
    (k : Nat) : List Call :=
  match state_at T cfg s its k, its[k]? with
  | some sk, some it => (loop_body T cfg sk it).1
  | _, _ => []

/-- Whether a call is one of the three transforms. -/
def Call.isTransform : Call → Bool
  | .frames_as_frequencies => true
  | .dft => true
  | .fft => true
  | _ => false

/-- The call of the transform of a mode. -/
def FunctionType.call : FunctionType → Call
  | .FRAMES => Call.frames_as_frequencies
  | .DFT => Call.dft
  | .FFT => Call.fft

/-- The label drawn for a mode. -/
def FunctionType.label : FunctionType → String
  | .FRAMES => "Showing: Frames. Change with 1 / 2 / 3"
  | .DFT => "Showing: DFT. Change with 1 / 2 / 3"
  | .FFT => "Showing: FFT. Change with 1 / 2 / 3"

/-- The contents of `frequencies` after the transform of a mode. -/
def FunctionType.apply (T : Transforms) (cfg : Config) (m : FunctionType)
    (frames frequencies : Mem ℚ) : Mem ℚ :=
  match m with
  | .FRAMES => T.frames_as_frequencies frames frequencies cfg.FRAME_COUNT_MAX
  | .DFT => T.dft frames frequencies cfg.FRAME_COUNT_MAX
  | .FFT => T.fft frames frequencies cfg.FRAME_COUNT_MAX

/-- The height of the rectangle a call draws, if it draws one. -/
def Call.height? : Call → Option ℚ
  | .SDL_RenderFillRect _ _ _ h => some h
  | _ => none

/-- The label a call draws, if it draws one. -/
def Call.label? : Call → Option String
  | .SDL_RenderDebugText str => some str
  | _ => none

/-- The heights of the rectangles drawn, in order. -/
def heights (calls : List Call) : List ℚ := calls.filterMap Call.height?

/-- The labels drawn, in order. -/
def labels (calls : List Call) : List String := calls.filterMap Call.label?

/-- Whether a call is one of the five cleanup calls. -/
def Call.isCleanup : Call → Bool
  | .ma_device_uninit => true
  | .ma_decoder_uninit => true
  | .SDL_DestroyRenderer => true
  | .SDL_DestroyWindow => true
  | .SDL_Quit => true
  | _ => false

/-- The calls of a pass whose render block runs, up to `SDL_RenderPresent`. -/
def render_calls (cfg : Config) (m : FunctionType) (frequencies : Mem ℚ) : List Call :=
  [Call.clock_gettime, Call.SDL_PollEvent, Call.SDL_SetRenderDrawColor 0 0 0 255,
    Call.SDL_RenderClear, Call.SDL_SetRenderDrawColor 0 255 0 255]
    ++ draw_bars cfg frequencies
    ++ [Call.SDL_SetRenderDrawColor 255 255 255 255, Call.SDL_SetRenderScale 2 2,
        Call.SDL_RenderDebugText m.label, m.call,
        Call.SDL_SetRenderScale 1 1, Call.SDL_RenderPresent]


/-- The heights of the bars of a spectrum: for each bar, the height and its mirror. -/
def heights_of (cfg : Config) (frequencies : Mem ℚ) : List ℚ :=
  ((List.range (cfg.FRAME_COUNT_MAX / 2)).map
    fun i => [bar_height cfg frequencies i, bar_height cfg frequencies i * -1]).flatten

/-- Whether the transform-and-draw step runs in iteration `k`: the iteration
calls a transform. -/
def renders_at (T : Transforms) (cfg : Config) (s : LoopState) (its : List Iteration)
    (k : Nat) : Bool :=
  (calls_at T cfg s its k).any Call.isTransform

/-- The sum of the measured durations of the iterations `a, ..., b - 1`. -/
def elapsed_between (its : List Iteration) (a b : Nat) : ℚ :=
  (((its.drop a).take (b - a)).map Iteration.elapsed).sum

/-! ### A concrete run -/

/-- Modelled from the spec: the transform `frames_as_frequencies` of `fft.c`,
whose body is not among the sources. The window values are copied into the
spectrum unchanged: the result holds the first `count / 2` entries of the
window (sections 4.4 and 8); the rest of `frequencies` is left as it was. -/
def passthrough (frames frequencies : Mem ℚ) (count : Nat) : Mem ℚ :=
  fun i => if i < count / 2 then frames i else frequencies i

/-- Transforms for concrete runs in mode `FRAMES`: the passthrough above; `dft`
and `fft` are not called in these runs and stand as functions that leave
`frequencies` as it is. -/
def demoTransforms : Transforms :=
  { frames_as_frequencies := passthrough
    dft := fun _ frequencies _ => frequencies
    fft := fun _ frequencies _ => frequencies }

/-- A window of two samples, one bar, scaling factor 1. -/
def demoConfig : Config := { FRAME_COUNT_MAX := 2, FREQUENCY_SCALING := 1 }

/-- An iteration of 20 ms with no event, in which clear and present succeed and
the window holds the sample `1` in every cell. -/
def demoIteration : Iteration :=
  { frame_start := { tv_sec := 0, tv_nsec := 0 }
    polled := none
    clear_ok := true
    frames := fun _ => 1
    present_ok := true
    frame_end := { tv_sec := 0, tv_nsec := 20000000 } }

/-- A run of three such iterations. -/
def demoRun : List Iteration := [demoIteration, demoIteration, demoIteration]

/-! ## Theorems -/

/-! ### Lemmas on the loop -/

theorem callback_body_pOutput {α D : Type} (i : Nat) (s : AudioState α D) :
    (callback_body i s).pOutput = s.pOutput := rfl

theorem callback_body_pUserData {α D : Type} (i : Nat) (s : AudioState α D) :
    (callback_body i s).pUserData = s.pUserData := rfl

theorem callback_body_decoderCalls {α D : Type} (i : Nat) (s : AudioState α D) :
    (callback_body i s).decoderCalls = s.decoderCalls := rfl

theorem callback_loop_pOutput {α D : Type} (N n : Nat) (fuel i : Nat) (s : AudioState α D) :
    (callback_loop N n fuel i s).pOutput = s.pOutput := by
  induction fuel generalizing i s with
  | zero => rfl
  | succ f ih =>
    unfold callback_loop
    split
    · rw [ih, callback_body_pOutput]
    · rfl

theorem callback_loop_pUserData {α D : Type} (N n : Nat) (fuel i : Nat) (s : AudioState α D) :
    (callback_loop N n fuel i s).pUserData = s.pUserData := by
  induction fuel generalizing i s with
  | zero => rfl
  | succ f ih =>
    unfold callback_loop
    split
    · rw [ih, callback_body_pUserData]
    · rfl

theorem callback_loop_decoderCalls {α D : Type} (N n : Nat) (fuel i : Nat)
    (s : AudioState α D) :
    (callback_loop N n fuel i s).decoderCalls = s.decoderCalls := by
  induction fuel generalizing i s with
  | zero => rfl
  | succ f ih =>
    unfold callback_loop
    split
    · rw [ih, callback_body_decoderCalls]
    · rfl

/-- The window after the loop: the cells from the entry counter up to
`min frameCount N` hold the sample read for them, every other cell is as
before. -/
theorem callback_loop_frames {α D : Type} (N n : Nat) (fuel i : Nat) (s : AudioState α D)
    (hfuel : min n N - i ≤ fuel) (j : Nat) :
    (callback_loop N n fuel i s).frames j =
      if i ≤ j ∧ j < min n N then s.pOutput (sampleIndex j) else s.frames j := by
  induction fuel generalizing i s with
  | zero =>
    have h : ¬ (i ≤ j ∧ j < min n N) := by omega
    rw [callback_loop, if_neg h]
  | succ f ih =>
    unfold callback_loop
    by_cases hg : i < n ∧ i < N
    · rw [if_pos hg, ih (i + 1) (callback_body i s) (by omega)]
      by_cases hj : j = i
      · subst hj
        have h1 : ¬ (j + 1 ≤ j ∧ j < min n N) := by omega
        have h2 : j ≤ j ∧ j < min n N := ⟨le_refl _, by
          rcases hg with ⟨a, b⟩
          exact lt_min a b⟩
        rw [if_neg h1, if_pos h2]
        simp [callback_body]
      · have hupd : (callback_body i s).frames j = s.frames j := by
          simp [callback_body, Function.update, hj]
        rw [callback_body_pOutput, hupd]
        by_cases h1 : i + 1 ≤ j ∧ j < min n N
        · have h2 : i ≤ j ∧ j < min n N := ⟨by omega, h1.2⟩
          rw [if_pos h1, if_pos h2]
        · have h2 : ¬ (i ≤ j ∧ j < min n N) := by omega
          rw [if_neg h1, if_neg h2]
    · rw [if_neg hg]
      have h : ¬ (i ≤ j ∧ j < min n N) := by
        intro ⟨_, h2⟩
        have := lt_min_iff.mp h2
        omega
      rw [if_neg h]

/-- The loop leaves through its guard: once the bound covers the
`min frameCount N - i` passes that remain, a larger bound changes nothing. -/
theorem callback_loop_fuel {α D : Type} (N n : Nat) (fuel i : Nat) (s : AudioState α D)
    (hfuel : min n N - i ≤ fuel) :
    callback_loop N n (fuel + 1) i s = callback_loop N n fuel i s := by
  induction fuel generalizing i s with
  | zero =>
    have hg : ¬ (i < n ∧ i < N) := by
      intro ⟨a, b⟩
      have := lt_min a b
      omega
    simp [callback_loop, hg]
  | succ f ih =>
    rw [callback_loop]
    by_cases hg : i < n ∧ i < N
    · rw [if_pos hg, ih (i + 1) _ (by omega)]
      conv_rhs => rw [callback_loop, if_pos hg]
    · rw [if_neg hg]
      conv_rhs => rw [callback_loop, if_neg hg]

/-- The indices read by the loop: `i*2` for each counter value from the entry
counter up to `min frameCount N`, in order. -/
theorem callback_loop_reads {α D : Type} (N n : Nat) (fuel i : Nat) (s : AudioState α D)
    (hfuel : min n N - i ≤ fuel) :
    (callback_loop N n fuel i s).reads =
      s.reads ++ ((List.range (min n N - i)).map fun k => sampleIndex (i + k)) := by
  induction fuel generalizing i s with
  | zero =>
    have h : min n N - i = 0 := by omega
    simp [callback_loop, h]
  | succ f ih =>
    unfold callback_loop
    by_cases hg : i < n ∧ i < N
    · rw [if_pos hg, ih (i + 1) _ (by omega)]
      have hlt : i < min n N := lt_min hg.1 hg.2
      have hsplit : min n N - i = (min n N - (i + 1)) + 1 := by omega
      rw [hsplit, List.range_succ_eq_map]
      simp only [callback_body, List.map_cons, List.map_map, List.append_assoc,
        List.singleton_append, Nat.add_zero]
      congr 2
      apply List.map_congr_left
      intro k _
      simp only [Function.comp, Nat.succ_eq_add_one]
      congr 1
      omega
    · rw [if_neg hg]
      have h : min n N - i = 0 := by
        by_contra hne
        have : i < min n N := by omega
        exact hg (lt_min_iff.mp this)
      simp [h]


/-! ### The callback as a whole -/

theorem data_callback_some {α D : Type} (read_pcm_frames : ReadPcmFrames α D) (N : Nat)
    (s : AudioState α D) (d : D) (n : Nat) (h : s.pUserData = some d) :
    data_callback read_pcm_frames N s n =
      callback_loop N n n 0 (afterDecode read_pcm_frames s d n) := by
  simp [data_callback, afterDecode, h]

/-- With a live decoder the buffer after the call is the one the decoder
filled, and cell `i` of the window holds `pOutput[i*2]` for `i < min n N`. -/
theorem data_callback_frames {α D : Type} (read_pcm_frames : ReadPcmFrames α D) (N : Nat)
    (s : AudioState α D) (d : D) (n : Nat) (h : s.pUserData = some d) (j : Nat) :
    (data_callback read_pcm_frames N s n).frames j =
      if j < min n N then (read_pcm_frames d s.pOutput n).2 (sampleIndex j)
      else s.frames j := by
  rw [data_callback_some read_pcm_frames N s d n h,
    callback_loop_frames N n n 0 _ (by omega) j]
  simp [afterDecode]

theorem data_callback_pOutput {α D : Type} (read_pcm_frames : ReadPcmFrames α D) (N : Nat)
    (s : AudioState α D) (d : D) (n : Nat) (h : s.pUserData = some d) :
    (data_callback read_pcm_frames N s n).pOutput = (read_pcm_frames d s.pOutput n).2 := by
  rw [data_callback_some read_pcm_frames N s d n h, callback_loop_pOutput]
  rfl

/-- The indices at which a call with a live decoder reads `pOutput`. -/
theorem data_callback_reads {α D : Type} (read_pcm_frames : ReadPcmFrames α D) (N : Nat)
    (s : AudioState α D) (d : D) (n : Nat) (h : s.pUserData = some d) :
    (data_callback read_pcm_frames N s n).reads =
      s.reads ++ (List.range (min n N)).map sampleIndex := by
  rw [data_callback_some read_pcm_frames N s d n h,
    callback_loop_reads N n n 0 _ (by omega)]
  simp [afterDecode]

/-- With a two-channel stream (and a window of at most `2 ^ 31` entries, so that
`i*2` does not wrap) the callback extracts the first channel: cell `i` of the
window holds sample `i * 2` of the buffer the decoder filled. -/
theorem data_callback_stereo {α D : Type} (read_pcm_frames : ReadPcmFrames α D) (N : Nat)
    (s : AudioState α D) (d : D) (n i : Nat) (h : s.pUserData = some d)
    (hN : N ≤ 2 ^ 31) (hi : i < min n N) :
    (data_callback read_pcm_frames N s n).frames i =
      (data_callback read_pcm_frames N s n).pOutput (i * 2) := by
  rw [data_callback_frames read_pcm_frames N s d n h, if_pos hi,
    data_callback_pOutput read_pcm_frames N s d n h]
  have hlt : i < N := lt_of_lt_of_le hi (min_le_right _ _)
  have : sampleIndex i = i * 2 := by
    unfold sampleIndex
    apply Nat.mod_eq_of_lt
    omega
  rw [this]

/-- With a two-channel stream every read of the output buffer is inside the
`n * 2` samples the decoder filled. -/
theorem data_callback_stereo_reads {α D : Type} (read_pcm_frames : ReadPcmFrames α D)
    (N : Nat) (s : AudioState α D) (d : D) (n : Nat) (h : s.pUserData = some d)
    (hs : s.reads = []) (hN : N ≤ 2 ^ 31) :
    ∀ k ∈ (data_callback read_pcm_frames N s n).reads, k < n * 2 := by
  rw [data_callback_reads read_pcm_frames N s d n h, hs]
  intro k hk
  simp only [List.nil_append, List.mem_map, List.mem_range] at hk
  obtain ⟨i, hi, rfl⟩ := hk
  have h1 : i < n := lt_of_lt_of_le hi (min_le_left _ _)
  have h2 : i < N := lt_of_lt_of_le hi (min_le_right _ _)
  unfold sampleIndex
  rw [Nat.mod_eq_of_lt (by omega)]
  omega

/-- C1 (partial refresh). Whatever the window held, whatever the handle and
whatever the frame count `n`, every cell `frames[i]` with `min n N ≤ i` holds
after `data_callback` the value it held before: the suffix of the window is
neither zero-filled nor refreshed, and no cell at or past index `N` is
written, also when `n > N`. -/
theorem partial_refresh {α D : Type} (read_pcm_frames : ReadPcmFrames α D) (N : Nat)
    (s : AudioState α D) (n i : Nat) (hi : min n N ≤ i) :
    (data_callback read_pcm_frames N s n).frames i = s.frames i := by
  cases h : s.pUserData with
  | none => simp [data_callback, h]
  | some d =>
    rw [data_callback_frames read_pcm_frames N s d n h, if_neg (by omega)]

theorem partial_refresh_witness :
    min 2 4 ≤ 3 ∧
      (data_callback stereoDecoder 4 (demoState (some 0)) 2).frames 3
        = (demoState (some 0)).frames 3 :=
  ⟨by decide, partial_refresh stereoDecoder 4 (demoState (some 0)) 2 3 (by decide)⟩

/-- C2 (channel extraction), on a one-channel stream. The device is opened
with the channel count of the decoder, here 1, and the decoder delivers the
four frames `10, 20, 30, 40`. After the callback `frames[1]` holds `30`, the
sample at index `1*2`, while the first-channel sample of frame 1 is
`pOutput[1*1] = 20`; and `frames[2]` holds `-1`, the content of the memory
behind the four-sample buffer, not `pOutput[2*1] = 30`. -/
theorem channel_extraction_mono :
    (data_callback monoDecoder 4 (demoState (some 0)) 4).frames 1 = 30
      ∧ (data_callback monoDecoder 4 (demoState (some 0)) 4).pOutput (1 * 1) = 20
      ∧ (data_callback monoDecoder 4 (demoState (some 0)) 4).frames 1
          ≠ (data_callback monoDecoder 4 (demoState (some 0)) 4).pOutput (1 * 1)
      ∧ (data_callback monoDecoder 4 (demoState (some 0)) 4).frames 2 = -1
      ∧ (data_callback monoDecoder 4 (demoState (some 0)) 4).pOutput (2 * 1) = 30 := by
  decide

/-- C10 (in-bounds reads), on a one-channel stream. The decoder delivers two
frames, so the output buffer holds `2 * 1` samples; the callback reads it at
the indices `0` and `2`, and `2` is not below `2 * 1`. -/
theorem reads_mono_out_of_bounds :
    (data_callback monoDecoder 4 (demoState (some 0)) 2).reads = [0, 2]
      ∧ ¬ (∀ k ∈ (data_callback monoDecoder 4 (demoState (some 0)) 2).reads, k < 2 * 1) := by
  decide

/-- C5 (null context). When the user-data handle of the device is `NULL`,
`data_callback` returns the state it was given: the decoder is not invoked
(its call log is unchanged), and the window and the output buffer are
untouched. -/
theorem null_context_noop {α D : Type} (read_pcm_frames : ReadPcmFrames α D) (N : Nat)
    (s : AudioState α D) (n : Nat) (h : s.pUserData = none) :
    data_callback read_pcm_frames N s n = s := by
  simp [data_callback, h]

theorem null_context_noop_witness :
    (demoState none).pUserData = none ∧
      data_callback monoDecoder 4 (demoState none) 3 = demoState none :=
  ⟨rfl, null_context_noop monoDecoder 4 (demoState none) 3 rfl⟩

/-! ### Producer and transform interleaved -/

theorem Race.run_append {α D : Type} (N n : Nat) (r : Race α D) (xs ys : List Thread) :
    Race.run N n r (xs ++ ys) = Race.run N n (Race.run N n r xs) ys := by
  simp [Race.run, List.foldl_append]

theorem Race.run_cons {α D : Type} (N n : Nat) (r : Race α D) (t : Thread)
    (ts : List Thread) :
    Race.run N n r (t :: ts) = Race.run N n (Race.step N n r t) ts := rfl

/-- Consecutive loads of the transform see one and the same window. -/
theorem Race.run_consumer {α D : Type} (N n : Nat) (k : Nat) (r : Race α D) :
    Race.run N n r (List.replicate k Thread.consumer) =
      { r with
        toRead := r.toRead.drop k
        observed := r.observed ++ (r.toRead.take k).map r.audio.frames } := by
  induction k generalizing r with
  | zero => simp [Race.run]
  | succ k ih =>
    rw [List.replicate_succ, Race.run_cons]
    cases hr : r.toRead with
    | nil =>
      have hstep : Race.step N n r Thread.consumer = r := by simp [Race.step, hr]
      rw [hstep, ih, hr]
      simp
    | cons j rest =>
      have hstep : Race.step N n r Thread.consumer =
          { r with toRead := rest, observed := r.observed ++ [r.audio.frames j] } := by
        simp [Race.step, hr]
      rw [hstep, ih]
      simp

/-- The producer steps of the model are the passes of the loop of
`data_callback`: `m` of them in a row leave the shared state that
`callback_loop` with bound `m` leaves. -/
theorem Race.run_producer {α D : Type} (N n : Nat) (m : Nat) (r : Race α D) :
    (Race.run N n r (List.replicate m Thread.producer)).audio = callback_loop N n m r.i r.audio
      ∧ (Race.run N n r (List.replicate m Thread.producer)).toRead = r.toRead
      ∧ (Race.run N n r (List.replicate m Thread.producer)).observed = r.observed := by
  induction m generalizing r with
  | zero => simp [Race.run, callback_loop]
  | succ m ih =>
    rw [List.replicate_succ, Race.run_cons]
    by_cases hg : r.i < n ∧ r.i < N
    · have hstep : Race.step N n r Thread.producer =
          { r with audio := callback_body r.i r.audio, i := r.i + 1 } := by
        simp [Race.step, hg]
      rw [hstep]
      obtain ⟨h1, h2, h3⟩ := ih { r with audio := callback_body r.i r.audio, i := r.i + 1 }
      refine ⟨?_, h2, h3⟩
      rw [h1, callback_loop, if_pos hg]
    · have hstep : Race.step N n r Thread.producer = r := by
        simp only [Race.step, if_neg hg]
      rw [hstep]
      obtain ⟨h1, h2, h3⟩ := ih r
      refine ⟨?_, h2, h3⟩
      rw [h1, callback_loop, if_neg hg]
      cases m with
      | zero => rfl
      | succ m => rw [callback_loop, if_neg hg]

/-- Once the transform has loaded all its cells, nothing changes what it has seen. -/
theorem Race.run_done {α D : Type} (N n : Nat) (sched : List Thread) (r : Race α D)
    (h : r.toRead = []) :
    (Race.run N n r sched).observed = r.observed := by
  induction sched generalizing r with
  | nil => rfl
  | cons t ts ih =>
    rw [Race.run_cons]
    cases t with
    | producer =>
      by_cases hg : r.i < n ∧ r.i < N
      · have hstep : Race.step N n r Thread.producer =
            { r with audio := callback_body r.i r.audio, i := r.i + 1 } := by
          simp [Race.step, hg]
        rw [hstep]
        exact ih _ h
      · have hstep : Race.step N n r Thread.producer = r := by
          simp only [Race.step, if_neg hg]
        rw [hstep, ih _ h]
    | consumer =>
      have hstep : Race.step N n r Thread.consumer = r := by simp [Race.step, h]
      rw [hstep, ih _ h]

/-- C4 (snapshot isolation), as stated, fails. The window starts as
`[1, 2, 3, 4]`, the decoder has delivered two stereo frames with first-channel
samples `10` and `20`, and the transform loads cells 0 and 1. When both passes
of the callback loop run between the two loads, the transform sees `[1, 20]`:
cell 0 before the update and cell 1 after it, which is neither the window at
the start of the invocation, `[1, 2]`, nor the updated window `[10, 20]`. -/
theorem snapshot_isolation_torn :
    (Race.run 4 2 (Race.start demoDecoded 0 [0, 1])
        [Thread.consumer, Thread.producer, Thread.producer, Thread.consumer]).observed = [1, 20]
      ∧ [0, 1].map demoDecoded.frames = [1, 2]
      ∧ (Race.run 4 2 (Race.start demoDecoded 0 [0, 1])
          [Thread.consumer, Thread.producer, Thread.producer, Thread.consumer]).observed
        ≠ [0, 1].map demoDecoded.frames := by
  decide

/-- The values a transform invocation loads when `m` passes of the callback
loop are scheduled after its first `k` loads and before the remaining ones:
the first `k` cells as they were at the start, the remaining cells as those
`m` passes left them. What is scheduled after the last load has no effect. -/
theorem Race.observed_interrupted {α D : Type} (N n : Nat) (s : AudioState α D) (i : Nat)
    (order : List Nat) (k m : Nat) (rest : List Thread) :
    (Race.run N n (Race.start s i order)
        (List.replicate k Thread.consumer ++ List.replicate m Thread.producer
          ++ List.replicate (order.length - k) Thread.consumer ++ rest)).observed
      = (order.take k).map s.frames
          ++ (order.drop k).map (callback_loop N n m i s).frames := by
  rw [Race.run_append, Race.run_append, Race.run_append]
  have e1 : Race.run N n (Race.start s i order) (List.replicate k Thread.consumer) =
      { audio := s, i := i, toRead := order.drop k, observed := (order.take k).map s.frames } := by
    rw [Race.run_consumer]
    simp [Race.start]
  rw [e1]
  obtain ⟨h1, h2, h3⟩ := Race.run_producer N n m
    { audio := s, i := i, toRead := order.drop k, observed := (order.take k).map s.frames }
  simp only at h1 h2 h3
  have hlen : (order.drop k).length ≤ order.length - k := by simp
  rw [Race.run_done, Race.run_consumer]
  · simp only [h1, h2, h3]
    rw [List.take_of_length_le hlen]
  · rw [Race.run_consumer]
    simp only [h2]
    exact List.drop_eq_nil_iff.mpr hlen

/-- C4, amended. The transform reads the shared window in place, so what it
observes depends on the schedule. For every schedule in which no pass of the
callback loop runs between the loads of a transform invocation (all its loads
come first, anything may follow), the input it observes is the window state as
of the start of the invocation. When `m` passes of the callback loop are
scheduled after the first `k` loads and before the remaining ones, the first
`k` loads see the window as of the start of the invocation and the remaining
loads see the window as those `m` passes left it. -/
theorem snapshot_when_uninterrupted {α D : Type} (N n : Nat) (s : AudioState α D) (i : Nat)
    (order : List Nat) (k m : Nat) (rest : List Thread) :
    (Race.run N n (Race.start s i order)
        (List.replicate order.length Thread.consumer ++ rest)).observed
      = order.map s.frames
    ∧ (Race.run N n (Race.start s i order)
        (List.replicate k Thread.consumer ++ List.replicate m Thread.producer
          ++ List.replicate (order.length - k) Thread.consumer ++ rest)).observed
      = (order.take k).map s.frames
          ++ (order.drop k).map (callback_loop N n m i s).frames := by
  refine ⟨?_, Race.observed_interrupted N n s i order k m rest⟩
  have h := Race.observed_interrupted N n s i order order.length 0 rest
  simpa using h

/-! ### The loop body, case by case -/

/-- The calls every pass makes before the frame-rate gate. -/
theorem loop_body_quit (T : Transforms) (cfg : Config) (s : LoopState) (it : Iteration)
    (h : handle_event it.polled s.function_type = none) :
    loop_body T cfg s it = ([Call.clock_gettime, Call.SDL_PollEvent], none) := by
  simp [loop_body, h]

theorem loop_body_clear_failed (T : Transforms) (cfg : Config) (s : LoopState) (it : Iteration)
    (m : FunctionType) (h : handle_event it.polled s.function_type = some m)
    (hc : it.clear_ok = false) :
    loop_body T cfg s it =
      ([Call.clock_gettime, Call.SDL_PollEvent, Call.SDL_SetRenderDrawColor 0 0 0 255,
        Call.SDL_RenderClear, Call.SDL_GetError,
        Call.fprintf_stderr "Error Clearing SDL Window: %s\n"], none) := by
  simp [loop_body, h, hc]

theorem loop_body_skip (T : Transforms) (cfg : Config) (s : LoopState) (it : Iteration)
    (m : FunctionType) (h : handle_event it.polled s.function_type = some m)
    (hc : it.clear_ok = true) (hg : ¬ s.delta_time > 1 / FPS) :
    loop_body T cfg s it =
      ([Call.clock_gettime, Call.SDL_PollEvent, Call.SDL_SetRenderDrawColor 0 0 0 255,
        Call.SDL_RenderClear, Call.SDL_Delay 16, Call.clock_gettime],
       some { delta_time := s.delta_time + it.elapsed, function_type := m,
              frequencies := s.frequencies }) := by
  have hg' : ¬ FPS⁻¹ < s.delta_time := by simpa using hg
  simp [loop_body, h, hc, hg', end_of_iteration]

theorem label_and_transform_eq (T : Transforms) (cfg : Config) (m : FunctionType)
    (frames frequencies : Mem ℚ) :
    label_and_transform T cfg m frames frequencies =
      ([Call.SDL_RenderDebugText m.label, m.call], m.apply T cfg frames frequencies) := by
  cases m <;> rfl

theorem loop_body_render (T : Transforms) (cfg : Config) (s : LoopState) (it : Iteration)
    (m : FunctionType) (h : handle_event it.polled s.function_type = some m)
    (hc : it.clear_ok = true) (hg : s.delta_time > 1 / FPS) :
    loop_body T cfg s it =
      if it.present_ok = true then
        (render_calls cfg m s.frequencies ++ [Call.SDL_Delay 16, Call.clock_gettime],
         some { delta_time := 0 + it.elapsed, function_type := m,
                frequencies := m.apply T cfg it.frames s.frequencies })
      else
        (render_calls cfg m s.frequencies
          ++ [Call.SDL_GetError, Call.fprintf_stderr "Error Rendering SDL Window: %s\n"],
         none) := by
  have hg' : FPS⁻¹ < s.delta_time := by simpa using hg
  cases hp : it.present_ok <;>
    simp [loop_body, h, hc, hg', hp, end_of_iteration, label_and_transform_eq, render_calls]

/-! ### What a pass draws and calls -/

theorem heights_append (xs ys : List Call) : heights (xs ++ ys) = heights xs ++ heights ys := by
  simp [heights, List.filterMap_append]

theorem labels_append (xs ys : List Call) : labels (xs ++ ys) = labels xs ++ labels ys := by
  simp [labels, List.filterMap_append]

theorem heights_draw_bars (cfg : Config) (frequencies : Mem ℚ) :
    heights (draw_bars cfg frequencies) = heights_of cfg frequencies := by
  unfold draw_bars heights_of
  induction List.range (cfg.FRAME_COUNT_MAX / 2) with
  | nil => rfl
  | cons i l ih =>
    simp only [List.map_cons, List.flatten_cons, heights_append, ih]
    rfl

theorem labels_draw_bars (cfg : Config) (frequencies : Mem ℚ) :
    labels (draw_bars cfg frequencies) = [] := by
  unfold draw_bars
  induction List.range (cfg.FRAME_COUNT_MAX / 2) with
  | nil => rfl
  | cons i l ih =>
    simp only [List.map_cons, List.flatten_cons, labels_append, ih]
    rfl

theorem filter_draw_bars (p : Call → Bool) (hp : ∀ x y w h, p (Call.SDL_RenderFillRect x y w h) = false)
    (cfg : Config) (frequencies : Mem ℚ) :
    (draw_bars cfg frequencies).filter p = [] := by
  unfold draw_bars
  induction List.range (cfg.FRAME_COUNT_MAX / 2) with
  | nil => rfl
  | cons i l ih =>
    simp only [List.map_cons, List.flatten_cons, List.filter_append, ih]
    simp [draw_bar, hp]

theorem FunctionType.call_isTransform (m : FunctionType) : m.call.isTransform = true := by
  cases m <;> rfl

theorem FunctionType.call_isCleanup (m : FunctionType) : m.call.isCleanup = false := by
  cases m <;> rfl

theorem FunctionType.call_height (m : FunctionType) : m.call.height? = none := by
  cases m <;> rfl

theorem FunctionType.call_label (m : FunctionType) : m.call.label? = none := by
  cases m <;> rfl

/-- In a render pass exactly one transform is called: that of the mode. -/
theorem filter_render_calls (cfg : Config) (m : FunctionType) (frequencies : Mem ℚ) :
    (render_calls cfg m frequencies).filter Call.isTransform = [m.call] := by
  cases m <;>
    simp [render_calls, List.filter_append,
      filter_draw_bars Call.isTransform (fun _ _ _ _ => rfl), List.filter_cons,
      Call.isTransform, FunctionType.call]

theorem cleanup_free_render_calls (cfg : Config) (m : FunctionType) (frequencies : Mem ℚ) :
    (render_calls cfg m frequencies).filter Call.isCleanup = [] := by
  cases m <;>
    simp [render_calls, List.filter_append,
      filter_draw_bars Call.isCleanup (fun _ _ _ _ => rfl), List.filter_cons,
      Call.isCleanup, FunctionType.call]

theorem heights_render_calls (cfg : Config) (m : FunctionType) (frequencies : Mem ℚ) :
    heights (render_calls cfg m frequencies) = heights_of cfg frequencies := by
  unfold render_calls
  rw [heights_append, heights_append, heights_draw_bars]
  cases m <;> simp [heights, Call.height?, FunctionType.call]

theorem labels_render_calls (cfg : Config) (m : FunctionType) (frequencies : Mem ℚ) :
    labels (render_calls cfg m frequencies) = [m.label] := by
  unfold render_calls
  rw [labels_append, labels_append, labels_draw_bars]
  cases m <;> simp [labels, Call.label?, FunctionType.call]

/-- A pass calls a transform exactly when it gets past the event block and
`SDL_RenderClear` with `delta_time > 1 / FPS`. -/
theorem transform_called_iff (T : Transforms) (cfg : Config) (s : LoopState) (it : Iteration) :
    (loop_body T cfg s it).1.any Call.isTransform = true ↔
      ∃ m, handle_event it.polled s.function_type = some m ∧ it.clear_ok = true
        ∧ s.delta_time > 1 / FPS := by
  cases h : handle_event it.polled s.function_type with
  | none => simp [loop_body_quit T cfg s it h, Call.isTransform]
  | some m =>
    cases hc : it.clear_ok with
    | false => simp [loop_body_clear_failed T cfg s it m h hc, Call.isTransform]
    | true =>
      by_cases hg : s.delta_time > 1 / FPS
      · have hany : ∀ tail : List Call,
            (render_calls cfg m s.frequencies ++ tail).any Call.isTransform = true := by
          intro tail
          rw [List.any_eq_true]
          refine ⟨m.call, ?_, m.call_isTransform⟩
          simp [render_calls]
        rw [loop_body_render T cfg s it m h hc hg]
        constructor
        · intro _
          exact ⟨m, rfl, rfl, hg⟩
        · intro _
          split <;> exact hany _
      · rw [loop_body_skip T cfg s it m h hc hg]
        constructor
        · intro hh
          simp [Call.isTransform] at hh
        · rintro ⟨_, _, _, hg'⟩
          exact absurd hg' hg

/-! ### The state from one iteration to the next -/

theorem state_at_succ (T : Transforms) (cfg : Config) (s : LoopState) (its : List Iteration)
    (k : Nat) :
    state_at T cfg s its (k + 1) =
      (state_at T cfg s its k).bind fun sk =>
        (its[k]?).bind fun it => (loop_body T cfg sk it).2 := by
  induction k generalizing s its with
  | zero =>
    cases its with
    | nil => simp [state_at]
    | cons it its =>
      simp only [state_at, List.getElem?_cons_zero, Option.some_bind]
      cases (loop_body T cfg s it).2 <;> simp [state_at]
  | succ k ih =>
    cases its with
    | nil => simp [state_at]
    | cons it its =>
      rw [state_at]
      cases hb : (loop_body T cfg s it).2 with
      | none => simp [state_at, hb]
      | some s' =>
        simp only [state_at, hb, ih, List.getElem?_cons_succ]

/-- The state one iteration on, unfolded. -/
theorem state_at_step (T : Transforms) (cfg : Config) (s : LoopState) (its : List Iteration)
    (k : Nat) (s' : LoopState) (h : state_at T cfg s its (k + 1) = some s') :
    ∃ sk it, state_at T cfg s its k = some sk ∧ its[k]? = some it
      ∧ (loop_body T cfg sk it).2 = some s' := by
  rw [state_at_succ] at h
  cases hk : state_at T cfg s its k with
  | none => simp [hk] at h
  | some sk =>
    cases hi : its[k]? with
    | none => simp [hk, hi] at h
    | some it =>
      simp only [hk, hi, Option.some_bind] at h
      exact ⟨sk, it, rfl, rfl, h⟩

theorem elapsed_between_self (its : List Iteration) (a : Nat) : elapsed_between its a a = 0 := by
  simp [elapsed_between]

theorem elapsed_between_succ (its : List Iteration) (a b : Nat) (it : Iteration)
    (hab : a ≤ b) (hit : its[b]? = some it) :
    elapsed_between its a (b + 1) = elapsed_between its a b + it.elapsed := by
  unfold elapsed_between
  have h1 : b + 1 - a = (b - a) + 1 := by omega
  have h2 : (its.drop a)[b - a]? = some it := by
    rw [List.getElem?_drop]
    have : a + (b - a) = b := by omega
    rw [this, hit]
  rw [h1, List.take_succ, h2]
  simp

/-! ### Leaving the loop -/

theorem main_ok (T : Transforms) (cfg : Config) (frequencies : Mem ℚ) (its : List Iteration) :
    main T cfg frequencies Startup.ok its =
      (main_loop T cfg (initial_state frequencies) its).map
        fun calls => (0, startup_calls ++ calls ++ cleanup) := by
  unfold main
  cases main_loop T cfg (initial_state frequencies) its <;>
    simp [Startup.ok, startup_calls]

/-- A pass that leaves by `goto cleanup` ends the loop: the loop returns, and
the calls of that pass are the last ones it makes. -/
theorem main_loop_exit_at (T : Transforms) (cfg : Config) (s : LoopState)
    (its : List Iteration) (k : Nat) (sk : LoopState) (it : Iteration)
    (hs : state_at T cfg s its k = some sk) (hit : its[k]? = some it)
    (hx : (loop_body T cfg sk it).2 = none) :
    ∃ pre, main_loop T cfg s its = some (pre ++ (loop_body T cfg sk it).1) := by
  induction k generalizing s its with
  | zero =>
    cases its with
    | nil => simp at hit
    | cons it0 rest =>
      simp only [List.getElem?_cons_zero, Option.some.injEq] at hit
      simp only [state_at, Option.some.injEq] at hs
      subst hit hs
      refine ⟨[], ?_⟩
      rw [main_loop]
      rcases hb : loop_body T cfg s it0 with ⟨calls, o⟩
      rw [hb] at hx
      simp only at hx
      subst hx
      simp
  | succ k ih =>
    cases its with
    | nil => simp at hit
    | cons it0 rest =>
      simp only [List.getElem?_cons_succ] at hit
      rw [state_at] at hs
      rcases hb : loop_body T cfg s it0 with ⟨calls, o⟩
      rw [hb] at hs
      cases o with
      | none => simp at hs
      | some s' =>
        simp only at hs
        obtain ⟨pre, hpre⟩ := ih s' rest hs hit
        refine ⟨calls ++ pre, ?_⟩
        rw [main_loop, hb]
        simp [hpre]

theorem cleanup_free_loop_body (T : Transforms) (cfg : Config) (s : LoopState)
    (it : Iteration) : (loop_body T cfg s it).1.filter Call.isCleanup = [] := by
  cases h : handle_event it.polled s.function_type with
  | none => simp [loop_body_quit T cfg s it h, Call.isCleanup]
  | some m =>
    cases hc : it.clear_ok with
    | false => simp [loop_body_clear_failed T cfg s it m h hc, Call.isCleanup]
    | true =>
      by_cases hg : s.delta_time > 1 / FPS
      · rw [loop_body_render T cfg s it m h hc hg]
        split <;>
          simp [List.filter_append, cleanup_free_render_calls, Call.isCleanup]
      · simp [loop_body_skip T cfg s it m h hc hg, Call.isCleanup]

theorem cleanup_free_main_loop (T : Transforms) (cfg : Config) (s : LoopState)
    (its : List Iteration) (calls : List Call) (h : main_loop T cfg s its = some calls) :
    calls.filter Call.isCleanup = [] := by
  induction its generalizing s calls with
  | nil => simp [main_loop] at h
  | cons it rest ih =>
    rw [main_loop] at h
    have hfree := cleanup_free_loop_body T cfg s it
    rcases hb : loop_body T cfg s it with ⟨c0, o⟩
    rw [hb] at h hfree
    cases o with
    | none =>
      simp only [Option.some.injEq] at h
      subst h
      exact hfree
    | some s' =>
      simp only at h
      cases hr : main_loop T cfg s' rest with
      | none => simp [hr] at h
      | some cr =>
        simp only [hr, Option.map_some', Option.some.injEq] at h
        subst h
        rw [List.filter_append, hfree, ih s' cr hr]
        rfl

/-- Every exit from the render loop (quit key, failed clear, failed present)
goes through the label `cleanup`: when start-up succeeds and `main` returns,
it returns 0 and its trace is some calls, none of them a cleanup call,
followed by the five cleanup calls in order, each once. -/
theorem loop_exit_runs_cleanup (T : Transforms) (cfg : Config) (frequencies : Mem ℚ)
    (its : List Iteration) (code : Int) (trace : List Call)
    (h : main T cfg frequencies Startup.ok its = some (code, trace)) :
    code = 0 ∧ ∃ pre, trace = pre ++ cleanup ∧ pre.filter Call.isCleanup = [] := by
  rw [main_ok] at h
  cases hr : main_loop T cfg (initial_state frequencies) its with
  | none => simp [hr] at h
  | some calls =>
    simp only [hr, Option.map_some', Option.some.injEq, Prod.mk.injEq] at h
    obtain ⟨hcode, htrace⟩ := h
    refine ⟨hcode.symm, startup_calls ++ calls, htrace.symm, ?_⟩
    rw [List.filter_append, cleanup_free_main_loop T cfg _ its calls hr]
    rfl

/-- C6 (key-to-mode mapping). From any mode, a key-down event sets the mode to
`FRAMES` for key `1`, `DFT` for key `2`, `FFT` for key `3`, and leaves it as it
is for any key other than these, `q` and Escape; `q` and Escape leave the loop
by `goto cleanup`; an event that is not a key-down, or no event, leaves the
mode as it is. A mode is always one of the three. And when `q` or Escape
arrives in an iteration the loop reaches, `main` returns 0 and its trace ends
with the two calls of that iteration followed by the cleanup calls. -/
theorem key_to_mode (T : Transforms) (cfg : Config) (m : FunctionType) (key : Nat)
    (ev : SDL_Event) :
    handle_event (some ⟨SDL_EVENT_KEY_DOWN, '1'.toNat⟩) m = some FunctionType.FRAMES
    ∧ handle_event (some ⟨SDL_EVENT_KEY_DOWN, '2'.toNat⟩) m = some FunctionType.DFT
    ∧ handle_event (some ⟨SDL_EVENT_KEY_DOWN, '3'.toNat⟩) m = some FunctionType.FFT
    ∧ (key ∉ ['q'.toNat, SDLK_ESCAPE, '1'.toNat, '2'.toNat, '3'.toNat] →
        handle_event (some ⟨SDL_EVENT_KEY_DOWN, key⟩) m = some m)
    ∧ handle_event (some ⟨SDL_EVENT_KEY_DOWN, 'q'.toNat⟩) m = none
    ∧ handle_event (some ⟨SDL_EVENT_KEY_DOWN, SDLK_ESCAPE⟩) m = none
    ∧ (ev.type ≠ SDL_EVENT_KEY_DOWN → handle_event (some ev) m = some m)
    ∧ handle_event none m = some m
    ∧ (m = FunctionType.FRAMES ∨ m = FunctionType.DFT ∨ m = FunctionType.FFT)
    ∧ (∀ (frequencies : Mem ℚ) (its : List Iteration) (k : Nat) (sk : LoopState)
        (it : Iteration),
        state_at T cfg (initial_state frequencies) its k = some sk → its[k]? = some it →
        (it.polled = some ⟨SDL_EVENT_KEY_DOWN, 'q'.toNat⟩
          ∨ it.polled = some ⟨SDL_EVENT_KEY_DOWN, SDLK_ESCAPE⟩) →
        ∃ pre, main T cfg frequencies Startup.ok its =
          some (0, pre ++ [Call.clock_gettime, Call.SDL_PollEvent] ++ cleanup)) := by
  refine ⟨by simp [handle_event, SDLK_ESCAPE], by simp [handle_event, SDLK_ESCAPE],
    by simp [handle_event, SDLK_ESCAPE], ?_,
    by simp [handle_event], by simp [handle_event], ?_, rfl, ?_, ?_⟩
  · intro hkey
    simp only [List.mem_cons, List.mem_singleton, List.not_mem_nil, or_false, not_or] at hkey
    obtain ⟨h1, h2, h3, h4, h5⟩ := hkey
    simp [SDLK_ESCAPE] at h1 h2 h3 h4 h5
    simp [handle_event, SDLK_ESCAPE, h1, h2, h3, h4, h5]
  · intro hne
    have : ¬ SDL_EVENT_KEY_DOWN = ev.type := fun h => hne h.symm
    simp [handle_event, this]
  · cases m <;> simp
  · intro frequencies its k sk it hs hit hq
    have hnone : handle_event it.polled sk.function_type = none := by
      rcases hq with hq | hq <;> rw [hq] <;> simp [handle_event]
    have hbody := loop_body_quit T cfg sk it hnone
    obtain ⟨pre, hpre⟩ := main_loop_exit_at T cfg _ its k sk it hs hit (by rw [hbody])
    rw [hbody] at hpre
    refine ⟨startup_calls ++ pre, ?_⟩
    rw [main_ok, hpre]
    simp

/-- C7 (single teardown path), at a failing start-up. When `SDL_Init` and
`SDL_CreateWindowAndRenderer` succeed and `ma_decoder_init_file` fails, `main`
returns -2 after the message, with no cleanup call at all: renderer and window
are not destroyed and `SDL_Quit` is not called. When `ma_device_init` fails,
`main` releases the decoder and returns -3, again without the three SDL
cleanup calls. -/
theorem startup_failure_skips_teardown (T : Transforms) (cfg : Config) (frequencies : Mem ℚ)
    (its : List Iteration) :
    main T cfg frequencies
        { sdl_init := true, create_window := true, decoder_init := false,
          device_init := true, device_start := true } its
      = some (-2, [Call.SDL_Init, Call.SDL_CreateWindowAndRenderer, Call.ma_decoder_init_file,
          Call.printf "Could not load file\n"])
    ∧ main T cfg frequencies
        { sdl_init := true, create_window := true, decoder_init := true,
          device_init := false, device_start := true } its
      = some (-3, [Call.SDL_Init, Call.SDL_CreateWindowAndRenderer, Call.ma_decoder_init_file,
          Call.ma_device_config_init, Call.printf "Channels: %d\n", Call.ma_device_init,
          Call.printf "Failed to open playback device.\n", Call.ma_decoder_uninit]) := by
  constructor <;> simp [main]

/-! ### Render cycles along a run -/

theorem renders_at_eq (T : Transforms) (cfg : Config) (s : LoopState) (its : List Iteration)
    (k : Nat) (sk : LoopState) (it : Iteration)
    (hs : state_at T cfg s its k = some sk) (hit : its[k]? = some it) :
    renders_at T cfg s its k = (loop_body T cfg sk it).1.any Call.isTransform := by
  simp [renders_at, calls_at, hs, hit]

theorem calls_at_eq (T : Transforms) (cfg : Config) (s : LoopState) (its : List Iteration)
    (k : Nat) (sk : LoopState) (it : Iteration)
    (hs : state_at T cfg s its k = some sk) (hit : its[k]? = some it) :
    calls_at T cfg s its k = (loop_body T cfg sk it).1 := by
  simp [calls_at, hs, hit]

/-- An iteration renders exactly when the loop reaches it, it gets past the
event block and `SDL_RenderClear`, and `delta_time > 1 / FPS` holds. -/
theorem renders_at_iff (T : Transforms) (cfg : Config) (s : LoopState) (its : List Iteration)
    (k : Nat) :
    renders_at T cfg s its k = true ↔
      ∃ sk it m, state_at T cfg s its k = some sk ∧ its[k]? = some it
        ∧ handle_event it.polled sk.function_type = some m ∧ it.clear_ok = true
        ∧ sk.delta_time > 1 / FPS := by
  cases hs : state_at T cfg s its k with
  | none => simp [renders_at, calls_at, hs]
  | some sk =>
    cases hit : its[k]? with
    | none => simp [renders_at, calls_at, hs, hit]
    | some it =>
      rw [renders_at_eq T cfg s its k sk it hs hit, transform_called_iff]
      constructor
      · rintro ⟨m, h1, h2, h3⟩
        exact ⟨sk, it, m, rfl, rfl, h1, h2, h3⟩
      · rintro ⟨sk', it', m, h0, h0', h1, h2, h3⟩
        simp only [Option.some.injEq] at h0 h0'
        subst h0 h0'
        exact ⟨m, h1, h2, h3⟩

/-- The state after a pass that renders and goes on. -/
theorem step_of_render (T : Transforms) (cfg : Config) (s : LoopState) (it : Iteration)
    (m : FunctionType) (s' : LoopState)
    (h : handle_event it.polled s.function_type = some m) (hc : it.clear_ok = true)
    (hg : s.delta_time > 1 / FPS) (hs' : (loop_body T cfg s it).2 = some s') :
    s' = { delta_time := 0 + it.elapsed, function_type := m,
           frequencies := m.apply T cfg it.frames s.frequencies } := by
  rw [loop_body_render T cfg s it m h hc hg] at hs'
  split at hs'
  · simp only [Option.some.injEq] at hs'
    exact hs'.symm
  · simp at hs'

/-- The state after a pass that does not render and goes on. -/
theorem step_of_skip (T : Transforms) (cfg : Config) (s : LoopState) (it : Iteration)
    (s' : LoopState) (hn : (loop_body T cfg s it).1.any Call.isTransform = false)
    (hs' : (loop_body T cfg s it).2 = some s') :
    s'.delta_time = s.delta_time + it.elapsed ∧ s'.frequencies = s.frequencies := by
  cases h : handle_event it.polled s.function_type with
  | none => simp [loop_body_quit T cfg s it h] at hs'
  | some m =>
    cases hc : it.clear_ok with
    | false => simp [loop_body_clear_failed T cfg s it m h hc] at hs'
    | true =>
      by_cases hg : s.delta_time > 1 / FPS
      · have := (transform_called_iff T cfg s it).mpr ⟨m, h, hc, hg⟩
        rw [hn] at this
        simp at this
      · rw [loop_body_skip T cfg s it m h hc hg] at hs'
        simp only [Option.some.injEq] at hs'
        subst hs'
        exact ⟨rfl, rfl⟩

/-- The accumulator `d` iterations after a reset point `a` (the start of the
loop, or an iteration that renders) with no render in between: the sum of
the measured durations since `a`. -/
theorem delta_since (T : Transforms) (cfg : Config) (s : LoopState) (its : List Iteration)
    (a d : Nat) (sb : LoopState)
    (ha : (a = 0 ∧ s.delta_time = 0) ∨ renders_at T cfg s its a = true)
    (hno : ∀ j, a < j → j < a + 1 + d → renders_at T cfg s its j = false)
    (hs : state_at T cfg s its (a + 1 + d) = some sb) :
    sb.delta_time = elapsed_between its a (a + 1 + d) := by
  induction d generalizing sb with
  | zero =>
    obtain ⟨sa, it, hsa, hit, hbody⟩ := state_at_step T cfg s its a sb hs
    rw [Nat.add_zero, elapsed_between_succ its a a it (le_refl _) hit, elapsed_between_self]
    cases hr : (loop_body T cfg sa it).1.any Call.isTransform with
    | true =>
      obtain ⟨m, h1, h2, h3⟩ := (transform_called_iff T cfg sa it).mp hr
      rw [step_of_render T cfg sa it m sb h1 h2 h3 hbody]
    | false =>
      rw [(step_of_skip T cfg sa it sb hr hbody).1]
      rcases ha with ⟨ha0, hd0⟩ | ha
      · subst ha0
        simp only [state_at, Option.some.injEq] at hsa
        rw [← hsa, hd0]
      · rw [renders_at_eq T cfg s its a sa it hsa hit, hr] at ha
        simp at ha
  | succ d ih =>
    obtain ⟨sp, it, hsp, hit, hbody⟩ := state_at_step T cfg s its (a + 1 + d) sb hs
    have hp := ih sp (fun j h1 h2 => hno j h1 (by omega)) hsp
    have hr : (loop_body T cfg sp it).1.any Call.isTransform = false := by
      rw [← renders_at_eq T cfg s its (a + 1 + d) sp it hsp hit]
      exact hno (a + 1 + d) (by omega) (by omega)
    rw [show a + 1 + (d + 1) = (a + 1 + d) + 1 from rfl,
      elapsed_between_succ its a (a + 1 + d) it (by omega) hit,
      (step_of_skip T cfg sp it sb hr hbody).1, hp]

/-- The spectrum `d` iterations after a render at `a`, with no render in
between: the one the transform called at `a` produced. -/
theorem frequencies_since (T : Transforms) (cfg : Config) (s : LoopState)
    (its : List Iteration) (a d : Nat) (sa sb : LoopState) (ita : Iteration) (ma : FunctionType)
    (hsa : state_at T cfg s its a = some sa) (hita : its[a]? = some ita)
    (hma : handle_event ita.polled sa.function_type = some ma)
    (ha : renders_at T cfg s its a = true)
    (hno : ∀ j, a < j → j < a + 1 + d → renders_at T cfg s its j = false)
    (hs : state_at T cfg s its (a + 1 + d) = some sb) :
    sb.frequencies = ma.apply T cfg ita.frames sa.frequencies := by
  induction d generalizing sb with
  | zero =>
    obtain ⟨sa', it, hsa', hit, hbody⟩ := state_at_step T cfg s its a sb hs
    rw [hsa] at hsa'
    rw [hita] at hit
    simp only [Option.some.injEq] at hsa' hit
    subst hsa' hit
    rw [renders_at_eq T cfg s its a sa ita hsa hita] at ha
    obtain ⟨m, h1, h2, h3⟩ := (transform_called_iff T cfg sa ita).mp ha
    rw [hma] at h1
    simp only [Option.some.injEq] at h1
    subst h1
    rw [step_of_render T cfg sa ita ma sb hma h2 h3 hbody]
  | succ d ih =>
    obtain ⟨sp, it, hsp, hit, hbody⟩ := state_at_step T cfg s its (a + 1 + d) sb hs
    have hp := ih sp (fun j h1 h2 => hno j h1 (by omega)) hsp
    have hr : (loop_body T cfg sp it).1.any Call.isTransform = false := by
      rw [← renders_at_eq T cfg s its (a + 1 + d) sp it hsp hit]
      exact hno (a + 1 + d) (by omega) (by omega)
    rw [(step_of_skip T cfg sp it sb hr hbody).2, hp]

/-- Until the first render the spectrum is the initial contents of `frequencies`. -/
theorem frequencies_initial (T : Transforms) (cfg : Config) (s : LoopState)
    (its : List Iteration) (b : Nat) (sb : LoopState)
    (hno : ∀ j, j < b → renders_at T cfg s its j = false)
    (hs : state_at T cfg s its b = some sb) :
    sb.frequencies = s.frequencies := by
  induction b generalizing sb with
  | zero =>
    simp only [state_at, Option.some.injEq] at hs
    rw [← hs]
  | succ b ih =>
    obtain ⟨sp, it, hsp, hit, hbody⟩ := state_at_step T cfg s its b sb hs
    have hp := ih sp (fun j h => hno j (by omega)) hsp
    have hr : (loop_body T cfg sp it).1.any Call.isTransform = false := by
      rw [← renders_at_eq T cfg s its b sp it hsp hit]
      exact hno b (by omega)
    rw [(step_of_skip T cfg sp it sb hr hbody).2, hp]

theorem frame_interval_pos : (0 : ℚ) ≤ 1 / FPS := by
  norm_num [FPS]

/-- C8 (frame-rate gating). Take any run of the loop from the initial state and
an iteration `b` in which the transform-and-draw step runs. Then `b` is not
the first iteration; `delta_time` strictly exceeds `1 / FPS` at the start of
`b`; when the loop goes on, `delta_time` after `b` is the duration of `b`
alone (the step resets the accumulator to 0); and for every reset point
`a < b` (the start of the loop, or an iteration that renders) with no render
strictly between `a` and `b`, the accumulator at `b` is the sum of the
measured durations of the iterations `a, ..., b - 1`, which therefore exceeds
one frame interval. No assumption on the sign of the durations is needed. -/
theorem frame_rate_gating (T : Transforms) (cfg : Config) (frequencies : Mem ℚ)
    (its : List Iteration) (b : Nat)
    (hb : renders_at T cfg (initial_state frequencies) its b = true) :
    0 < b ∧
    ∃ sb itb, state_at T cfg (initial_state frequencies) its b = some sb ∧ its[b]? = some itb
      ∧ sb.delta_time > 1 / FPS
      ∧ (∀ s', state_at T cfg (initial_state frequencies) its (b + 1) = some s' →
          s'.delta_time = 0 + itb.elapsed)
      ∧ (∀ a, a < b →
          (a = 0 ∨ renders_at T cfg (initial_state frequencies) its a = true) →
          (∀ j, a < j → j < b → renders_at T cfg (initial_state frequencies) its j = false) →
          sb.delta_time = elapsed_between its a b ∧ elapsed_between its a b > 1 / FPS) := by
  obtain ⟨sb, itb, mb, hsb, hitb, hmb, hcb, hgb⟩ :=
    (renders_at_iff T cfg (initial_state frequencies) its b).mp hb
  have hpos : 0 < b := by
    rcases Nat.eq_zero_or_pos b with h0 | h0
    · subst h0
      simp only [state_at, Option.some.injEq] at hsb
      rw [← hsb] at hgb
      have := frame_interval_pos
      simp only [initial_state] at hgb
      exact absurd hgb (not_lt.mpr this)
    · exact h0
  refine ⟨hpos, sb, itb, hsb, hitb, hgb, ?_, ?_⟩
  · intro s' hs'
    obtain ⟨sb', itb', h1, h2, hbody⟩ :=
      state_at_step T cfg (initial_state frequencies) its b s' hs'
    rw [hsb] at h1
    rw [hitb] at h2
    simp only [Option.some.injEq] at h1 h2
    subst h1 h2
    rw [step_of_render T cfg sb itb mb s' hmb hcb hgb hbody]
  · intro a hab ha hno
    obtain ⟨d, hd⟩ : ∃ d, b = a + 1 + d := ⟨b - (a + 1), by omega⟩
    subst hd
    have hacc := delta_since T cfg (initial_state frequencies) its a d sb
      (ha.imp (fun h => ⟨h, rfl⟩) id) hno hsb
    exact ⟨hacc, hacc ▸ hgb⟩

/-- C9, amended. In an iteration `b` in which the render block runs, exactly
one transform is called, the one of the current mode, and the label drawn
names that mode; but every bar is drawn before that call, from the contents
of `frequencies` at the start of the iteration. Those contents are the initial
contents of `frequencies` when no earlier iteration rendered, and otherwise
the spectrum that the transform called in the previous render cycle `a`
produced, in the mode of cycle `a` and from the window of cycle `a`. The
spectrum that the call of cycle `b` produces is the state handed to the
following iterations. -/
theorem bars_from_previous_cycle (T : Transforms) (cfg : Config) (frequencies : Mem ℚ)
    (its : List Iteration) (b : Nat)
    (hb : renders_at T cfg (initial_state frequencies) its b = true) :
    ∃ sb itb mb, state_at T cfg (initial_state frequencies) its b = some sb
      ∧ its[b]? = some itb
      ∧ handle_event itb.polled sb.function_type = some mb
      ∧ (calls_at T cfg (initial_state frequencies) its b).filter Call.isTransform = [mb.call]
      ∧ labels (calls_at T cfg (initial_state frequencies) its b) = [mb.label]
      ∧ (∃ before after,
          calls_at T cfg (initial_state frequencies) its b = before ++ mb.call :: after
          ∧ heights before = heights_of cfg sb.frequencies ∧ heights after = [])
      ∧ (∀ s', state_at T cfg (initial_state frequencies) its (b + 1) = some s' →
          s'.frequencies = mb.apply T cfg itb.frames sb.frequencies)
      ∧ ((∀ j, j < b → renders_at T cfg (initial_state frequencies) its j = false) →
          sb.frequencies = frequencies)
      ∧ (∀ a sa ita ma, a < b →
          renders_at T cfg (initial_state frequencies) its a = true →
          state_at T cfg (initial_state frequencies) its a = some sa → its[a]? = some ita →
          handle_event ita.polled sa.function_type = some ma →
          (∀ j, a < j → j < b → renders_at T cfg (initial_state frequencies) its j = false) →
          sb.frequencies = ma.apply T cfg ita.frames sa.frequencies) := by
  obtain ⟨sb, itb, mb, hsb, hitb, hmb, hcb, hgb⟩ :=
    (renders_at_iff T cfg (initial_state frequencies) its b).mp hb
  have hcalls := calls_at_eq T cfg (initial_state frequencies) its b sb itb hsb hitb
  have hbody := loop_body_render T cfg sb itb mb hmb hcb hgb
  have hshape : ∃ tail, calls_at T cfg (initial_state frequencies) its b =
      render_calls cfg mb sb.frequencies ++ tail ∧ tail.filter Call.isTransform = []
      ∧ heights tail = [] ∧ labels tail = [] := by
    rw [hcalls, hbody]
    split
    · exact ⟨_, rfl, rfl, rfl, rfl⟩
    · exact ⟨_, rfl, rfl, rfl, rfl⟩
  obtain ⟨tail, htail, ht1, ht2, ht3⟩ := hshape
  refine ⟨sb, itb, mb, hsb, hitb, hmb, ?_, ?_, ?_, ?_, ?_, ?_⟩
  · rw [htail, List.filter_append, filter_render_calls, ht1]
    rfl
  · rw [htail, labels_append, labels_render_calls, ht3]
    rfl
  · refine ⟨[Call.clock_gettime, Call.SDL_PollEvent, Call.SDL_SetRenderDrawColor 0 0 0 255,
        Call.SDL_RenderClear, Call.SDL_SetRenderDrawColor 0 255 0 255]
        ++ draw_bars cfg sb.frequencies
        ++ [Call.SDL_SetRenderDrawColor 255 255 255 255, Call.SDL_SetRenderScale 2 2,
            Call.SDL_RenderDebugText mb.label],
      [Call.SDL_SetRenderScale 1 1, Call.SDL_RenderPresent] ++ tail, ?_, ?_, ?_⟩
    · rw [htail]
      simp [render_calls]
    · rw [heights_append, heights_append, heights_draw_bars]
      simp [heights, Call.height?]
    · rw [heights_append, ht2]
      rfl
  · intro s' hs'
    obtain ⟨sb', itb', h1, h2, hstep⟩ :=
      state_at_step T cfg (initial_state frequencies) its b s' hs'
    rw [hsb] at h1
    rw [hitb] at h2
    simp only [Option.some.injEq] at h1 h2
    subst h1 h2
    rw [step_of_render T cfg sb itb mb s' hmb hcb hgb hstep]
  · intro hno
    exact frequencies_initial T cfg (initial_state frequencies) its b sb hno hsb
  · intro a sa ita ma hab ha hsa hita hma hno
    obtain ⟨d, hd⟩ : ∃ d, b = a + 1 + d := ⟨b - (a + 1), by omega⟩
    subst hd
    exact frequencies_since T cfg (initial_state frequencies) its a d sa sb ita ma
      hsa hita hma ha hno hsb

theorem demoRun_renders :
    renders_at demoTransforms demoConfig (initial_state fun _ => 0) demoRun 1 = true := by
  norm_num [renders_at, calls_at, state_at, demoRun, loop_body, handle_event, demoIteration,
    initial_state, end_of_iteration, Iteration.elapsed, FPS, label_and_transform,
    Call.isTransform]

theorem frame_rate_gating_witness :
    renders_at demoTransforms demoConfig (initial_state fun _ => 0) demoRun 1 = true ∧
    (0 < 1 ∧
    ∃ sb itb, state_at demoTransforms demoConfig (initial_state fun _ => 0) demoRun 1 = some sb
      ∧ demoRun[1]? = some itb
      ∧ sb.delta_time > 1 / FPS
      ∧ (∀ s', state_at demoTransforms demoConfig (initial_state fun _ => 0) demoRun (1 + 1)
            = some s' →
          s'.delta_time = 0 + itb.elapsed)
      ∧ (∀ a, a < 1 →
          (a = 0 ∨ renders_at demoTransforms demoConfig (initial_state fun _ => 0) demoRun a
            = true) →
          (∀ j, a < j → j < 1 →
            renders_at demoTransforms demoConfig (initial_state fun _ => 0) demoRun j = false) →
          sb.delta_time = elapsed_between demoRun a 1
            ∧ elapsed_between demoRun a 1 > 1 / FPS)) :=
  ⟨demoRun_renders,
    frame_rate_gating demoTransforms demoConfig (fun _ => 0) demoRun 1 demoRun_renders⟩

/-- C9, as stated, fails. In the run of three 20 ms iterations in mode `FRAMES`
with `frequencies` zero at the start and the window holding `1`, the render
block runs in iteration 1 and calls `frames_as_frequencies`. The spectrum that
call produces from the window gives the bar heights `[360, -360]`, but the
bars drawn in that iteration have heights `[0, 0]`: they are drawn from the
contents of `frequencies` before the call. -/
theorem bars_not_from_this_cycle :
    renders_at demoTransforms demoConfig (initial_state fun _ => 0) demoRun 1 = true
    ∧ (calls_at demoTransforms demoConfig (initial_state fun _ => 0) demoRun 1).filter
        Call.isTransform = [Call.frames_as_frequencies]
    ∧ heights (calls_at demoTransforms demoConfig (initial_state fun _ => 0) demoRun 1) = [0, 0]
    ∧ heights_of demoConfig
        (FunctionType.FRAMES.apply demoTransforms demoConfig demoIteration.frames fun _ => 0)
      = [360, -360]
    ∧ heights (calls_at demoTransforms demoConfig (initial_state fun _ => 0) demoRun 1)
      ≠ heights_of demoConfig
        (FunctionType.FRAMES.apply demoTransforms demoConfig demoIteration.frames fun _ => 0) := by
  have hr : List.range 1 = [0] := rfl
  have h1 : heights (calls_at demoTransforms demoConfig (initial_state fun _ => 0) demoRun 1)
      = [0, 0] := by
    norm_num [heights, calls_at, state_at, demoRun, loop_body, handle_event, demoIteration,
      initial_state, end_of_iteration, Iteration.elapsed, FPS, label_and_transform,
      Call.height?, draw_bars, draw_bar, demoConfig, bar_height, hr, List.filterMap_cons]
  have h2 : heights_of demoConfig
      (FunctionType.FRAMES.apply demoTransforms demoConfig demoIteration.frames fun _ => 0)
      = [360, -360] := by
    norm_num [heights_of, demoConfig, bar_height, FunctionType.apply, demoTransforms,
      passthrough, demoIteration, WINDOW_HEIGHT, hr]
  refine ⟨demoRun_renders, ?_, h1, h2, ?_⟩
  · norm_num [calls_at, state_at, demoRun, loop_body, handle_event, demoIteration,
      initial_state, end_of_iteration, Iteration.elapsed, FPS, label_and_transform,
      Call.isTransform, draw_bars, draw_bar, demoConfig, hr, List.filter_cons]
  · rw [h1, h2]
    norm_num

theorem bars_from_previous_cycle_witness :
    renders_at demoTransforms demoConfig (initial_state fun _ => 0) demoRun 1 = true ∧
    ∃ sb itb mb, state_at demoTransforms demoConfig (initial_state fun _ => 0) demoRun 1 = some sb
      ∧ demoRun[1]? = some itb
      ∧ handle_event itb.polled sb.function_type = some mb
      ∧ heights (calls_at demoTransforms demoConfig (initial_state fun _ => 0) demoRun 1)
          = heights_of demoConfig sb.frequencies
      ∧ sb.frequencies = fun _ => 0 := by
  obtain ⟨sb, itb, mb, h1, h2, h3, _, _, ⟨before, after, hc, hb, ha⟩, _, h8, _⟩ :=
    bars_from_previous_cycle demoTransforms demoConfig (fun _ => 0) demoRun 1 demoRun_renders
  refine ⟨demoRun_renders, sb, itb, mb, h1, h2, h3, ?_, ?_⟩
  · rw [hc, heights_append, hb]
    have : heights (mb.call :: after) = heights after := by
      cases mb <;> rfl
    rw [this, ha]
    simp
  · apply h8
    intro j hj
    have : j = 0 := by omega
    subst this
    norm_num [renders_at, calls_at, state_at, demoRun, loop_body, handle_event, demoIteration,
      initial_state, end_of_iteration, Iteration.elapsed, FPS, label_and_transform,
      Call.isTransform]

end FftC
